import Mathlib

/-!
Shallow embedding of `models/import_variant_helpers.py` from the
`kso_import_productvariant` module, together with theorems about the claims
of the specification.

Spreadsheet cells are modelled by an inductive `Cell` covering the value
kinds a decoded worksheet produces (blank/None, text, numbers, booleans).
Python-level operations that the source applies to cells (truthiness,
`float(...)`, `(x or d).strip()`, `str(x)`) are embedded as functions on
`Cell`; operations that raise in Python are embedded in `Except String`.
Machine floats are modelled by `Rat` (the import only parses, stores,
compares and takes minima of prices, never does lossy float arithmetic).
The product catalog (the external repository collaborator) is an explicit
state record threaded through every function; repository identifiers are
allocated from a counter.
-/

set_option linter.unusedVariables false

namespace KsoImport

/-- A decoded spreadsheet cell value: Python None, a string, a number or a
boolean. -/
inductive Cell where
  | pynone
  | str (s : String)
  | num (q : Rat)
  | bool (b : Bool)
deriving DecidableEq, Repr

/-- Python truthiness of a cell value. -/
def Cell.truthy : Cell → Bool
  | .pynone => false
  | .str s => !(s == "")
  | .num q => !(q == 0)
  | .bool b => b

/-- Python str.strip on a character list: drop leading and trailing
whitespace. -/
def pyStripList (l : List Char) : List Char :=
  ((l.dropWhile Char.isWhitespace).reverse.dropWhile Char.isWhitespace).reverse

/-- Python str.strip. -/
def pyStrip (s : String) : String := ⟨pyStripList s.data⟩

/-- Python str.lower (the import data is plain text). -/
def pyLower (s : String) : String := ⟨s.data.map Char.toLower⟩

/-- Python str.split on a single separator character (no maxsplit):
splitting the empty text gives one empty piece. -/
def splitChar (c : Char) : List Char → List (List Char)
  | [] => [[]]
  | x :: xs =>
    match splitChar c xs with
    | [] => [[x]]
    | cur :: rest => if x == c then [] :: cur :: rest else (x :: cur) :: rest

/-- Digits of a decimal literal, folded into a natural number. -/
def digitsVal (l : List Char) : Nat :=
  l.foldl (fun a c => a * 10 + (c.toNat - 48)) 0

/-- Embedding of Python float(string): optional sign, decimal digits with an
optional fractional part, surrounding whitespace ignored; returns none where
Python raises ValueError.  (The exponent, underscore and special forms of
the Python grammar are not needed by any input this development
evaluates.) -/
def parseFloatQ (s : String) : Option Rat :=
  let cs := pyStripList s.data
  let neg : Bool := match cs with
    | '-' :: _ => true
    | _ => false
  let cs2 : List Char := match cs with
    | '-' :: r => r
    | '+' :: r => r
    | r => r
  let ip := cs2.takeWhile Char.isDigit
  let rest := cs2.dropWhile Char.isDigit
  let mk (ip fr : List Char) : Rat :=
    let mag : Int := digitsVal ip * 10 ^ fr.length + digitsVal fr
    mkRat (if neg then -mag else mag) (10 ^ fr.length)
  match rest with
  | [] => if ip.isEmpty then none else some (mk ip [])
  | '.' :: fr =>
      if fr.all Char.isDigit && !(ip.isEmpty && fr.isEmpty) then some (mk ip fr)
      else none
  | _ => none

/-- Embedding of Python float(cell): None raises TypeError (none), booleans
convert to 0/1, numbers pass through, strings parse. -/
def pyFloat : Cell → Option Rat
  | .pynone => none
  | .str s => parseFloatQ s
  | .num q => some q
  | .bool b => some (if b then 1 else 0)

/-- Embedding of the Python idiom (cell or '').strip(): falsy cells give the
empty string, text strips, and a truthy non-string raises AttributeError. -/
def strOrBlankStrip : Cell → Except String String
  | .pynone => .ok ""
  | .str s => .ok (pyStrip s)
  | .num q => if q == 0 then .ok "" else .error "AttributeError: strip"
  | .bool b => if b then .error "AttributeError: strip" else .ok ""

/-- Embedding of the Python idiom (cell or default).strip() with a string
default. -/
def orStrStrip (c : Cell) (d : String) : Except String String :=
  if c.truthy then strOrBlankStrip c else .ok (pyStrip d)

/-- Embedding of the idiom comparing str(cell or '').strip().lower() with
the word true (used for the boolean-like columns).  A number never prints
as that word, so only text cells stripping to it case-insensitively and the
boolean True qualify. -/
def truthyStrEqTrue : Cell → Bool
  | .str s => pyLower (pyStrip s) == "true"
  | .bool b => b
  | _ => false

/-- Field access on the row mapping: dict.get(key) — None when the column is
absent, else the stored cell (which may itself be blank). -/
def getc (o : Option Cell) : Cell := o.getD Cell.pynone

/-- One decoded spreadsheet row: for each known column, none when the column
is absent from the sheet, some cell when present (possibly blank). -/
structure Row where
  name : Option Cell
  variant : Option Cell
  uom : Option Cell
  purchase_uom : Option Cell
  ptype : Option Cell
  is_tracked : Option Cell
  tracked_by : Option Cell
  is_storable : Option Cell
  is_saleable : Option Cell
  is_purchasable : Option Cell
  internal_notes : Option Cell
  sale_price : Option Cell
  cost_price : Option Cell
  stock_quantity : Option Cell
deriving DecidableEq, Repr

/-- A row with every column absent; concrete rows are built from it. -/
def emptyRow : Row :=
  ⟨none, none, none, none, none, none, none, none, none, none, none, none, none, none⟩

/-- Catalog record for uom.uom. -/
structure Uom where
  id : Nat
  name : String
deriving DecidableEq, Repr

/-- Catalog record for product.attribute. -/
structure PAttribute where
  id : Nat
  name : String
deriving DecidableEq, Repr

/-- Catalog record for product.attribute.value. -/
structure PAttrValue where
  id : Nat
  name : String
  attribute_id : Nat
deriving DecidableEq, Repr

/-- Catalog record for product.template.attribute.value, the link that ties a
template to one attribute value. -/
structure Ptav where
  id : Nat
  product_tmpl_id : Nat
  product_attribute_id : Nat
  product_attribute_value_id : Nat
deriving DecidableEq, Repr

/-- Catalog record for product.product (a variant), held inside its
template. -/
structure Variant where
  id : Nat
  ptav_ids : List Nat
  combination_indices : String
  lst_price : Rat
  fix_price : Rat
  standard_price : Rat
  qty_available : Rat
deriving DecidableEq, Repr

/-- Catalog record for product.template.  The type field stores the raw cell
written by the import (the source writes the unmodified cell value).
Attribute lines are pairs of attribute id and the attached value ids. -/
structure Template where
  id : Nat
  name : String
  ptype : Cell
  list_price : Rat
  standard_price : Rat
  uom_id : Option Nat
  uom_po_id : Option Nat
  sale_ok : Cell
  purchase_ok : Cell
  description : String
  is_storable : Bool
  tracking : String
  lot_valuated : Bool
  attribute_line_ids : List (Nat × List Nat)
  variants : List Variant
deriving DecidableEq, Repr

/-- The catalog repository state.  adjust_fails models the external
stock-adjustment mechanism: it says, per variant id and quantity, whether the
adjustment call raises (the import catches such failures). -/
structure St where
  uoms : List Uom
  attributes : List PAttribute
  attr_values : List PAttrValue
  ptavs : List Ptav
  templates : List Template
  next_id : Nat
  adjust_fails : Nat → Rat → Bool

/-- Decidable equality for results, so concrete runs can be checked by
decide. -/
instance exceptDecEq {α : Type} [DecidableEq α] : DecidableEq (Except String α) :=
  fun a b =>
    match a, b with
    | .error e1, .error e2 =>
        if h : e1 = e2 then isTrue (by rw [h]) else isFalse (by simp [h])
    | .ok x, .ok y =>
        if h : x = y then isTrue (by rw [h]) else isFalse (by simp [h])
    | .error _, .ok _ => isFalse (by simp)
    | .ok _, .error _ => isFalse (by simp)

/-- Case-insensitive name equality: the embedding of an =ilike match on a
plain name (the import never passes wildcard patterns). -/
def ilikeEq (a b : String) : Bool := pyLower a == pyLower b

/-- Look a template up by id. -/
def findTmpl (s : St) (tid : Nat) : Option Template :=
  s.templates.find? (fun t => t.id == tid)

/-- Apply an update to the template with the given id. -/
def updTmpl (s : St) (tid : Nat) (f : Template → Template) : St :=
  { s with templates := s.templates.map (fun t => if t.id == tid then f t else t) }

/-! ## Descriptor parsing (lines 99-108 and 164-169 of the source)

A variant descriptor splits on commas; every segment containing a colon
splits at the first colon into an attribute name and a value, both trimmed
and lower-cased; segments without a colon are dropped. -/

/-- The parsed attribute:value segments of a (already stripped) descriptor
string, in order of appearance. -/
def parseSegs (variant_str : String) : List (String × String) :=
  (splitChar ',' variant_str.data).filterMap (fun part =>
    if part.contains ':' then
      some (pyLower (pyStrip ⟨part.takeWhile (fun c => !(c == ':'))⟩),
            pyLower (pyStrip ⟨(part.dropWhile (fun c => !(c == ':'))).tail⟩))
    else none)

/-- Python dict assignment d[a] = v on an insertion-ordered association
list: an existing key keeps its position and takes the new value, a new key
is appended. -/
def dictInsert : List (String × String) → String → String → List (String × String)
  | [], a, v => [(a, v)]
  | (k, w) :: rest, a, v =>
      if k == a then (k, v) :: rest else (k, w) :: dictInsert rest a v

/-- The variant_attrs dict built by create_variant_manual (lines 165-169):
later segments with a repeated attribute name overwrite earlier ones. -/
def buildVariantAttrs (variant_str : String) : List (String × String) :=
  (parseSegs variant_str).foldl (fun d p => dictInsert d p.1 p.2) []

/-- Lookup in an insertion-ordered association list (dict indexing). -/
def dictGet (d : List (String × String)) (a : String) : Option String :=
  (d.find? (fun p => p.1 == a)).map (fun p => p.2)

/-- The nested-dict insertion of setup_template_attributes (lines 105-108):
the attribute keeps its first-seen position and accumulates each value name
once, in first-seen order. -/
def collectInsert : List (String × List String) → String → String → List (String × List String)
  | [], a, v => [(a, [v])]
  | (k, vs) :: rest, a, v =>
      if k == a then (k, if vs.contains v then vs else vs ++ [v]) :: rest
      else (k, vs) :: collectInsert rest a v

/-- Lookup in the collected attribute-to-values map. -/
def collectGet (d : List (String × List String)) (a : String) : Option (List String) :=
  (d.find? (fun p => p.1 == a)).map (fun p => p.2)

/-- The collection phase of setup_template_attributes (lines 94-108): scan
every variant row, skip blank descriptors, and fold all parsed segments into
the nested attribute-to-values map. -/
def collectAttrValues : List Row → Except String (List (String × List String)) :=
  go []
where
  go (d : List (String × List String)) : List Row → Except String (List (String × List String))
    | [] => .ok d
    | r :: rest =>
        match strOrBlankStrip (getc r.variant) with
        | .error e => .error e
        | .ok vstr =>
            if vstr == "" then go d rest
            else go ((parseSegs vstr).foldl (fun d p => collectInsert d p.1 p.2) d) rest

/-! ## Repository helpers (lines 22-60 of the source) -/

/-- get_or_create_uom: case-insensitive search, None for a blank name, and a
UserError when the unit is missing (the only fatal lookup). -/
def get_or_create_uom (s : St) (uom_name : String) : Except String (Option Nat) :=
  if uom_name == "" then .ok none
  else
    match s.uoms.find? (fun u => ilikeEq u.name uom_name) with
    | some u => .ok (some u.id)
    | none => .error ("Unit of Measure not found: " ++ uom_name)

/-- get_or_create_template_attribute_value: search the link records by
template and attribute value, create a fresh one when absent; returns the
link id. -/
def get_or_create_template_attribute_value (s : St) (tmplId attrId valId : Nat) :
    St × Nat :=
  match s.ptavs.find? (fun p =>
      p.product_tmpl_id == tmplId && p.product_attribute_value_id == valId) with
  | some p => (s, p.id)
  | none =>
      let p : Ptav := ⟨s.next_id, tmplId, attrId, valId⟩
      ({ s with ptavs := s.ptavs ++ [p], next_id := s.next_id + 1 }, s.next_id)

/-! ## setup_template_attributes (lines 82-141 of the source) -/

/-- The mapping returned by setup_template_attributes: attribute name to a
list of pairs of value name and the resolved records, where a resolved
record is the pair of its attribute value id and its attribute id. -/
abbrev AVMap := List (String × List (String × (Nat × Nat)))

/-- Resolve one attribute name and value name through the mapping, giving
the ids of the attribute value record and its attribute. -/
def avmapFind (m : AVMap) (a v : String) : Option (Nat × Nat) :=
  match m.find? (fun p => p.1 == a) with
  | none => none
  | some (_, vs) => (vs.find? (fun q => q.1 == v)).map (fun q => q.2)

/-- The per-attribute half of setup_template_attributes (lines 111-140):
get-or-create the attribute, get-or-create each value scoped to it, then
replace (or create) the attribute line of the template with the full value
id set. -/
def setupOneAttr (tmplId : Nat) (acc : St × AVMap) (entry : String × List String) :
    St × AVMap :=
  let s := acc.1
  let attr_name := entry.1
  let (s, attrRec) :=
    match s.attributes.find? (fun a => ilikeEq a.name attr_name) with
    | some a => (s, a)
    | none =>
        let a : PAttribute := ⟨s.next_id, attr_name⟩
        ({ s with attributes := s.attributes ++ [a], next_id := s.next_id + 1 }, a)
  let (s, valPairs) := entry.2.foldl
    (fun (vacc : St × List (String × (Nat × Nat))) v =>
      let s := vacc.1
      let (s, av) :=
        match s.attr_values.find? (fun x =>
            ilikeEq x.name v && x.attribute_id == attrRec.id) with
        | some x => (s, x)
        | none =>
            let x : PAttrValue := ⟨s.next_id, v, attrRec.id⟩
            ({ s with attr_values := s.attr_values ++ [x], next_id := s.next_id + 1 }, x)
      (s, vacc.2 ++ [(v, (av.id, attrRec.id))])) (s, [])
  let value_ids := valPairs.map (fun p => p.2.1)
  let s := updTmpl s tmplId (fun t =>
    if t.attribute_line_ids.any (fun l => l.1 == attrRec.id) then
      { t with attribute_line_ids := t.attribute_line_ids.map (fun l =>
          if l.1 == attrRec.id then (l.1, value_ids) else l) }
    else
      { t with attribute_line_ids := t.attribute_line_ids ++ [(attrRec.id, value_ids)] })
  (s, acc.2 ++ [(attr_name, valPairs)])

/-- setup_template_attributes: collect attribute and value names from all
variant rows, then materialise them in the catalog and on the template. -/
def setup_template_attributes (s : St) (tmplId : Nat) (rows : List Row) :
    Except String (St × AVMap) :=
  match collectAttrValues rows with
  | .error e => .error e
  | .ok collected => .ok (collected.foldl (setupOneAttr tmplId) (s, []))

/-! ## create_variant_manual (lines 144-225 of the source) -/

/-- The pair-resolution loop of create_variant_manual (lines 171-179): for
each dict entry, unresolvable pairs are skipped with a warning, resolvable
ones get-or-create their template-attribute-value link and contribute its
id. -/
def resolveIds (s : St) (tmplId : Nat) (avmap : AVMap) :
    List (String × String) → List Nat → St × List Nat
  | [], ids => (s, ids)
  | p :: rest, ids =>
    match avmapFind avmap p.1 p.2 with
    | none => resolveIds s tmplId avmap rest ids
    | some vr =>
        let r := get_or_create_template_attribute_value s tmplId vr.2 vr.1
        resolveIds r.1 tmplId avmap rest (ids ++ [r.2])

/-- The candidate combination identity (line 182): sort the link ids and
comma-join their decimal representations. -/
def sortedJoinIds (ids : List Nat) : String :=
  String.intercalate "," ((ids.insertionSort (· ≤ ·)).map toString)

/-- The pricing part of the vals dict (lines 196-207): a truthy sale price
cell parses to both prices, a truthy unparsable one falls back to the
template list price, a falsy one gives zero for both. -/
def salePriceVals (sale_price : Cell) (template_list_price : Rat) : Rat :=
  if sale_price.truthy then
    match pyFloat sale_price with
    | some q => q
    | none => template_list_price
  else 0

/-- The cost part of the vals dict (lines 209-216): set only for a truthy
cost price cell, falling back to the template standard price on a parse
failure. -/
def costPriceVals (cost_price : Cell) (template_standard_price : Rat) : Option Rat :=
  if cost_price.truthy then
    some (match pyFloat cost_price with
          | some q => q
          | none => template_standard_price)
  else none

/-- create_variant_manual: parse the descriptor into a dict, resolve the
pairs to link ids, compute the candidate combination identity, find an
existing variant with the same identity, and write or create the variant
with the assembled vals.  Returns the variant id, or none for a blank
descriptor. -/
def create_variant_manual (s : St) (tmplId : Nat) (product : Row) (avmap : AVMap) :
    Except String (St × Option Nat) :=
  match strOrBlankStrip (getc product.variant) with
  | .error e => .error e
  | .ok variant_str =>
    if variant_str == "" then .ok (s, none)
    else
      match findTmpl s tmplId with
      | none => .error "MissingRecord"
      | some t =>
        let variant_attrs := buildVariantAttrs variant_str
        let (s1, tmpl_attr_val_ids) := resolveIds s tmplId avmap variant_attrs []
        let candidate := sortedJoinIds tmpl_attr_val_ids
        let existing := t.variants.find? (fun v => sortedJoinIds v.ptav_ids == candidate)
        let lst := salePriceVals (getc product.sale_price) t.list_price
        let std := costPriceVals (getc product.cost_price) t.standard_price
        match existing with
        | some v =>
            let s2 := updTmpl s1 tmplId (fun t =>
              { t with variants := t.variants.map (fun w =>
                  if w.id == v.id then
                    { w with ptav_ids := tmpl_attr_val_ids,
                             combination_indices := candidate,
                             lst_price := lst, fix_price := lst,
                             standard_price := std.getD w.standard_price }
                  else w) })
            .ok (s2, some v.id)
        | none =>
            let vid := s1.next_id
            let nv : Variant :=
              ⟨vid, tmpl_attr_val_ids, candidate, lst, lst, std.getD 0, 0⟩
            let s2 := { s1 with next_id := s1.next_id + 1 }
            let s3 := updTmpl s2 tmplId (fun t => { t with variants := t.variants ++ [nv] })
            .ok (s3, some vid)

/-! ## update_variant_stock_quantity (lines 228-265 of the source) -/

/-- The value conversion the stock wizard applies to its new_quantity field
(the ORM float conversion float(value or 0.0)): falsy values give zero,
truthy ones go through the Python float parse, whose failure raises inside
the guarded block. -/
def cellToFloatField (c : Cell) : Option Rat :=
  if c.truthy then pyFloat c else some 0

/-- update_variant_stock_quantity: skip unless the variant has a template of
type consu whose tracking (defaulted to none when empty) is not lot or
serial; then run the wizard, catching both a conversion failure of the
quantity value and a failure of the adjustment itself, leaving the quantity
unchanged in either case. -/
def update_variant_stock_quantity (s : St) (tmplId vid : Nat) (quantity : Cell) : St :=
  match findTmpl s tmplId with
  | none => s
  | some t =>
    if !(t.ptype == Cell.str "consu") then s
    else
      if ((if t.tracking == "" then "none" else t.tracking) == "lot" ||
          (if t.tracking == "" then "none" else t.tracking) == "serial") then s
      else
        match cellToFloatField quantity with
        | none => s
        | some q =>
            if s.adjust_fails vid q then s
            else updTmpl s tmplId (fun t =>
              { t with variants := t.variants.map (fun w =>
                  if w.id == vid then { w with qty_available := q } else w) })

/-! ## clean_up_unwanted_variants (lines 268-293 of the source) -/

/-- Lines 279-282: the combination identities of the wanted variants, read
from their current records. -/
def wantedCombos (t : Template) (wanted : List Nat) : List String :=
  wanted.filterMap (fun w =>
    (t.variants.find? (fun v => v.id == w)).map (fun v => v.combination_indices))

/-- Lines 283-286: the existing variants whose combination identity is
absent from the wanted identities. -/
def unwantedOf (t : Template) (wanted : List Nat) : List Variant :=
  t.variants.filter (fun v =>
    !((wantedCombos t wanted).contains v.combination_indices))

/-- clean_up_unwanted_variants: gather the combination identities of the
wanted variants, mark every existing variant whose identity is absent, and
unlink the marked ones only when the template held more than one variant
and at least one would remain. -/
def clean_up_unwanted_variants (s : St) (tmplId : Nat) (wanted : List Nat) : St :=
  match findTmpl s tmplId with
  | none => s
  | some t =>
    let variants_to_remove := (unwantedOf t wanted).map (fun v => v.id)
    let total := t.variants.length
    if total > 1 && total - variants_to_remove.length ≥ 1 then
      updTmpl s tmplId (fun t => { t with variants := t.variants.filter (fun v =>
        !(variants_to_remove.contains v.id)) })
    else s

/-! ## get_tracking_value (lines 296-314 of the source) -/

/-- get_tracking_value: none when tracking is off or the tracked-by cell is
blank or unrecognized, else the lower-cased tracked-by value. -/
def get_tracking_value (is_tracked : Bool) (tracked_by : Cell) : Except String String :=
  if !is_tracked then .ok "none"
  else
    match strOrBlankStrip tracked_by with
    | .error e => .error e
    | .ok tb =>
      let tbl := pyLower tb
      if tbl == "" then .ok "none"
      else if tbl == "lot" || tbl == "serial" then .ok tbl
      else .ok "none"

/-! ## add_or_update_product_with_variants (lines 317-441 of the source)

The per-group body is split into upsertTemplate (lines 353-391),
variantPhase (lines 396-427) and finalizeTemplate (lines 430-440), composed
by processGroupT; evaluation order inside each piece follows the Python
statement and dict-literal order, so the first raising expression decides
which error aborts. -/

/-- The vals dict assembled for the template upsert; list_price is present
only when the group has no variant rows. -/
structure TemplateVals where
  ptype : Cell
  standard_price : Rat
  uom_id : Option Nat
  uom_po_id : Option Nat
  sale_ok : Cell
  purchase_ok : Cell
  description : String
  is_storable : Bool
  tracking : String
  lot_valuated : Bool
  list_price : Option Rat
deriving DecidableEq, Repr

/-- Lines 356-381: derive the tracking and storability flags, then build the
vals dict.  The unguarded float conversions of the cost price cell (and of
the sale price cell when the group has no variant rows) are fatal on
failure, as are string operations on truthy non-string cells and a missing
unit of measure. -/
def buildTemplateVals (s : St) (template_data : Row) (variantsEmpty : Bool) :
    Except String TemplateVals :=
  match orStrStrip (getc template_data.uom) "Unit" with
  | .error e => .error e
  | .ok uom_value =>
  match strOrBlankStrip (getc template_data.purchase_uom) with
  | .error e => .error e
  | .ok puom0 =>
  let purchase_uom_value := if puom0 == "" then uom_value else puom0
  match orStrStrip (getc template_data.ptype) "consu" with
  | .error e => .error e
  | .ok ptype_str =>
  let product_type := pyLower ptype_str
  let is_tracked := truthyStrEqTrue (getc template_data.is_tracked)
  match strOrBlankStrip (getc template_data.tracked_by) with
  | .error e => .error e
  | .ok tb0 =>
  let tracked_by := pyLower tb0
  let is_storable :=
    if product_type != "service" && is_tracked &&
        (tracked_by == "" || !(tracked_by == "lot" || tracked_by == "serial")) then
      true
    else truthyStrEqTrue (getc template_data.is_storable)
  match get_tracking_value is_tracked (getc template_data.tracked_by) with
  | .error e => .error e
  | .ok tracking_val =>
  let lot_valuated := tracking_val == "lot" || tracking_val == "serial"
  match pyFloat ((template_data.cost_price).getD (Cell.num 0)) with
  | none => .error "ValueError: float of cost price"
  | some standard_price =>
  match get_or_create_uom s uom_value with
  | .error e => .error e
  | .ok uom_id =>
  match get_or_create_uom s purchase_uom_value with
  | .error e => .error e
  | .ok uom_po_id =>
  match strOrBlankStrip (getc template_data.internal_notes) with
  | .error e => .error e
  | .ok description =>
  let base : TemplateVals :=
    { ptype := (template_data.ptype).getD (Cell.str "consu")
      standard_price := standard_price
      uom_id := uom_id
      uom_po_id := uom_po_id
      sale_ok := (template_data.is_saleable).getD (Cell.bool true)
      purchase_ok := (template_data.is_purchasable).getD (Cell.bool true)
      description := description
      is_storable := is_storable
      tracking := tracking_val
      lot_valuated := lot_valuated
      list_price := none }
  if variantsEmpty then
    match pyFloat ((template_data.sale_price).getD (Cell.num 0)) with
    | none => .error "ValueError: float of sale price"
    | some lp => .ok { base with list_price := some lp }
  else .ok base

/-- Write the vals dict onto an existing template record (the repository
write); list_price is touched only when present in vals. -/
def applyTemplateVals (name : String) (vals : TemplateVals) (t : Template) : Template :=
  { t with
    name := name
    ptype := vals.ptype
    standard_price := vals.standard_price
    uom_id := vals.uom_id
    uom_po_id := vals.uom_po_id
    sale_ok := vals.sale_ok
    purchase_ok := vals.purchase_ok
    description := vals.description
    is_storable := vals.is_storable
    tracking := vals.tracking
    lot_valuated := vals.lot_valuated
    list_price := vals.list_price.getD t.list_price }

/-- Lines 353-391: find the template by case-insensitive name, build vals,
then create the template or update it in place (dropping list_price from
vals when the template already has more than one variant).  A template
created without list_price starts at the repository field default 1. -/
def upsertTemplate (s : St) (template_name : String) (template_data : Row)
    (variants : List Row) : Except String (St × Nat) :=
  let product_tmpl0 := s.templates.find? (fun t => ilikeEq t.name template_name)
  match buildTemplateVals s template_data variants.isEmpty with
  | .error e => .error e
  | .ok vals =>
    match product_tmpl0 with
    | none =>
        let tid := s.next_id
        let t : Template :=
          { id := tid
            name := template_name
            ptype := vals.ptype
            list_price := vals.list_price.getD 1
            standard_price := vals.standard_price
            uom_id := vals.uom_id
            uom_po_id := vals.uom_po_id
            sale_ok := vals.sale_ok
            purchase_ok := vals.purchase_ok
            description := vals.description
            is_storable := vals.is_storable
            tracking := vals.tracking
            lot_valuated := vals.lot_valuated
            attribute_line_ids := []
            variants := [] }
        .ok ({ s with templates := s.templates ++ [t], next_id := s.next_id + 1 }, tid)
    | some t =>
        let vals := if t.variants.length > 1 then { vals with list_price := none } else vals
        .ok (updTmpl s t.id (applyTemplateVals template_name vals), t.id)

/-- Lines 407-413 and 418-424: the stock quantity cell of a row, parsed with
float and defaulting to zero on a parse failure. -/
def parsedQty (c : Cell) : Rat := (pyFloat c).getD 0

/-- Lines 402-413: the per-row loop creating or updating variants; rows with
a truthy variant cell run create_variant_manual, collect the resulting
variant id, and when the stock quantity column yields a value other than
None push the parsed quantity to the stock updater. -/
def variantLoop (s : St) (tmplId : Nat) (avmap : AVMap) :
    List Row → List Nat → Except String (St × List Nat)
  | [], created => .ok (s, created)
  | vd :: rest, created =>
    if (getc vd.variant).truthy then
      match create_variant_manual s tmplId vd avmap with
      | .error e => .error e
      | .ok (s1, none) => variantLoop s1 tmplId avmap rest created
      | .ok (s1, some vid) =>
          let vs := getc vd.stock_quantity
          let s2 :=
            if vs == Cell.pynone then s1
            else update_variant_stock_quantity s1 tmplId vid (Cell.num (parsedQty vs))
          variantLoop s2 tmplId avmap rest (created ++ [vid])
    else variantLoop s tmplId avmap rest created

/-- Lines 396-427: set up attributes, process the variant rows, create a
single default variant when the group has no variant rows and the template
has none, and for a group with no variant rows push the raw stock quantity
cell of the template row to the first variant. -/
def variantPhase (s : St) (tmplId : Nat) (template_data : Row) (variants : List Row) :
    Except String (St × List Nat) :=
  match setup_template_attributes s tmplId variants with
  | .error e => .error e
  | .ok r =>
    match variantLoop r.1 tmplId r.2 variants [] with
    | .error e => .error e
    | .ok r2 =>
      let curLen := ((findTmpl r2.1 tmplId).map (fun t => t.variants.length)).getD 0
      let pr : St × List Nat :=
        if variants.isEmpty && curLen == 0 then
          let vid := r2.1.next_id
          let nv : Variant := ⟨vid, [], "", 0, 0, 0, 0⟩
          let s := { r2.1 with next_id := r2.1.next_id + 1 }
          let s := updTmpl s tmplId (fun t => { t with variants := t.variants ++ [nv] })
          let ts := getc template_data.stock_quantity
          let s :=
            if ts == Cell.pynone then s
            else update_variant_stock_quantity s tmplId vid (Cell.num (parsedQty ts))
          (s, r2.2 ++ [vid])
        else r2
      if variants.isEmpty then
        match (findTmpl pr.1 tmplId).bind (fun t => t.variants.head?) with
        | none => .error "IndexError: product_variant_ids[0]"
        | some v =>
            .ok (update_variant_stock_quantity pr.1 tmplId v.id
                  (getc template_data.stock_quantity), pr.2)
      else .ok pr

/-- Line 431: any(...) over the stripped variant cells, with Python
short-circuiting (a raising cell after the first non-blank one is not
reached). -/
def hasVariantData : List Row → Except String Bool
  | [] => .ok false
  | r :: rest =>
    match strOrBlankStrip (getc r.variant) with
    | .error e => .error e
    | .ok v => if v == "" then hasVariantData rest else .ok true

/-- Lines 430-440: run cleanup when the group carried variant data, then
recompute the template list price as the minimum fix price over the current
variants (done only when the variant list is non-empty). -/
def finalizeTemplate (s : St) (tmplId : Nat) (created : List Nat) (hasVD : Bool) : St :=
  let s1 := if hasVD then clean_up_unwanted_variants s tmplId created else s
  match findTmpl s1 tmplId with
  | none => s1
  | some t =>
    match t.variants.map (fun v => v.fix_price) with
    | [] => s1
    | q :: rest => updTmpl s1 tmplId (fun t => { t with list_price := rest.foldl min q })

/-- A template group: the defining row and the rows attached as variant
rows, in order. -/
structure Group where
  template_data : Row
  variants : List Row
deriving DecidableEq, Repr

/-- Lines 331-345: one row of the grouping fold.  A non-blank unseen name
starts a group; a repeated name adds the row as a variant row only when its
variant cell is truthy; a blank name attaches the row to the most recently
started group, or drops it with a warning when no group exists. -/
def groupStep (acc : List (String × Group)) (product : Row) :
    Except String (List (String × Group)) :=
  match strOrBlankStrip (getc product.name) with
  | .error e => .error e
  | .ok name =>
    if name != "" then
      if acc.any (fun p => p.1 == name) then
        if (getc product.variant).truthy then
          .ok (acc.map (fun p =>
            if p.1 == name then (p.1, { p.2 with variants := p.2.variants ++ [product] })
            else p))
        else .ok acc
      else .ok (acc ++ [(name, ⟨product, []⟩)])
    else
      match acc with
      | [] => .ok []
      | _ => .ok (appendToLast acc product)
where
  /-- Append a row to the variant list of the last group. -/
  appendToLast : List (String × Group) → Row → List (String × Group)
    | [], _ => []
    | [p], product => [(p.1, { p.2 with variants := p.2.variants ++ [product] })]
    | p :: q :: rest, product => p :: appendToLast (q :: rest) product

/-- Lines 329-345: group the row sequence into an insertion-ordered mapping
from template name to group. -/
def groupRows : List Row → Except String (List (String × Group)) :=
  go []
where
  go (acc : List (String × Group)) : List Row → Except String (List (String × Group))
    | [] => .ok acc
    | r :: rest =>
      match groupStep acc r with
      | .error e => .error e
      | .ok acc1 => go acc1 rest

/-- Lines 351-352: the variant rows of a group, with the template-defining
row prepended when it carries a truthy variant cell. -/
def groupVariantRows (tg : String × Group) : List Row :=
  if (getc tg.2.template_data.variant).truthy then tg.2.template_data :: tg.2.variants
  else tg.2.variants

/-- Lines 348-440: process one template group, returning the new state and
the id of the template the group resolved to. -/
def processGroupT (s : St) (tg : String × Group) : Except String (St × Nat) :=
  match upsertTemplate s tg.1 tg.2.template_data (groupVariantRows tg) with
  | .error e => .error e
  | .ok r1 =>
    match variantPhase r1.1 r1.2 tg.2.template_data (groupVariantRows tg) with
    | .error e => .error e
    | .ok r2 =>
      match hasVariantData (groupVariantRows tg) with
      | .error e => .error e
      | .ok hasVD => .ok (finalizeTemplate r2.1 r1.2 r2.2 hasVD, r1.2)

/-- add_or_update_product_with_variants: group the rows, then process every
group in order. -/
def add_or_update_product_with_variants (s : St) (product_data : List Row) :
    Except String St :=
  match groupRows product_data with
  | .error e => .error e
  | .ok groups => goGroups s groups
where
  /-- The processing loop over the grouped templates. -/
  goGroups (s : St) : List (String × Group) → Except String St
    | [] => .ok s
    | tg :: rest =>
      match processGroupT s tg with
      | .error e => .error e
      | .ok r => goGroups r.1 rest

/-! ## Supporting lemmas -/

theorem find?_map_upd (l : List Template) (tid : Nat) (f : Template → Template)
    (hf : ∀ t, (f t).id = t.id) :
    (l.map (fun t => if t.id == tid then f t else t)).find? (fun t => t.id == tid) =
      (l.find? (fun t => t.id == tid)).map f := by
  induction l with
  | nil => rfl
  | cons a l ih =>
    simp only [List.map_cons]
    by_cases h : a.id = tid
    · rw [if_pos (by simpa using h)]
      rw [List.find?_cons_of_pos _ (by simp [hf, h]),
        List.find?_cons_of_pos _ (by simp [h])]
      rfl
    · rw [if_neg (by simpa using h)]
      rw [List.find?_cons_of_neg _ (by simp [h]),
        List.find?_cons_of_neg _ (by simp [h])]
      exact ih

theorem findTmpl_updTmpl (s : St) (tid : Nat) (f : Template → Template)
    (hf : ∀ t, (f t).id = t.id) :
    findTmpl (updTmpl s tid f) tid = (findTmpl s tid).map f :=
  find?_map_upd s.templates tid f hf

theorem contains_map_id_filter {vars : List Variant}
    (hnd : (vars.map Variant.id).Nodup) (p : Variant → Bool) :
    ∀ v ∈ vars, (((vars.filter p).map (fun v => v.id)).contains v.id) = p v := by
  intro v hv
  by_cases hp : p v = true
  · simp [hp]
    exact ⟨v, ⟨hv, hp⟩, rfl⟩
  · rw [Bool.not_eq_true] at hp
    rw [hp]
    by_contra hc
    rw [Bool.not_eq_false, List.elem_iff, List.mem_map] at hc
    obtain ⟨w, hwmem, hwid⟩ := hc
    have hwvars := List.mem_of_mem_filter hwmem
    have hwp := List.of_mem_filter hwmem
    have hwv : w = v := List.inj_on_of_nodup_map hnd hwvars hv hwid
    rw [hwv, hp] at hwp
    exact absurd hwp Bool.false_ne_true

theorem filter_not_remove {vars : List Variant}
    (hnd : (vars.map Variant.id).Nodup) (p : Variant → Bool) :
    vars.filter (fun v => !(((vars.filter p).map (fun v => v.id)).contains v.id)) =
      vars.filter (fun v => !(p v)) := by
  apply List.filter_congr
  intro v hv
  rw [contains_map_id_filter hnd p v hv]

/-! ## Claim C2 -/

/-- C2: cleanup never reduces a template variant count to zero.
(1) When the template has variants with distinct ids, the template after
clean_up_unwanted_variants still has at least one variant, every surviving
variant is one of the originals, and every variant whose combination
identity is among the wanted identities survives.  (2) When the guard fails
(the template holds at most one variant, or deleting the unwanted variants
would leave none, in particular when the wanted set is empty) the state is
returned unchanged, so nothing is deleted.  (3) finalizeTemplate invoked
with hasVD false skips cleanup entirely: the variant list is untouched.
(4) A group none of whose rows carries a non-blank variant descriptor
computes hasVD false. -/
theorem C2_cleanup_never_empties :
    (∀ s tid wanted t, findTmpl s tid = some t →
      (t.variants.map Variant.id).Nodup → t.variants ≠ [] →
      ∃ t', findTmpl (clean_up_unwanted_variants s tid wanted) tid = some t' ∧
        t'.variants ≠ [] ∧
        (∀ v ∈ t'.variants, v ∈ t.variants) ∧
        (∀ v ∈ t.variants,
          (wantedCombos t wanted).contains v.combination_indices →
            v ∈ t'.variants)) ∧
    (∀ s tid wanted t, findTmpl s tid = some t →
      ¬ (1 < t.variants.length ∧
          (unwantedOf t wanted).length < t.variants.length) →
      clean_up_unwanted_variants s tid wanted = s) ∧
    (∀ s tid created,
      (findTmpl (finalizeTemplate s tid created false) tid).map Template.variants =
        (findTmpl s tid).map Template.variants) ∧
    (∀ rows, (∀ r ∈ rows, strOrBlankStrip (getc r.variant) = .ok "") →
      hasVariantData rows = .ok false) := by
  refine ⟨?_, ?_, ?_, ?_⟩
  · intro s tid wanted t h hnd hne
    simp only [clean_up_unwanted_variants, h]
    split
    case isTrue hc =>
      rw [findTmpl_updTmpl, h, Option.map_some']
      · refine ⟨_, rfl, ?_, ?_, ?_⟩
        · simp only [unwantedOf]
          rw [filter_not_remove hnd]
          simp only [Bool.and_eq_true, decide_eq_true_eq, unwantedOf,
            List.length_map] at hc
          have hsum := List.length_eq_length_filter_add
            (l := t.variants)
            (fun v => !((wantedCombos t wanted).contains v.combination_indices))
          have hlen : 0 < (t.variants.filter (fun v =>
              !(!((wantedCombos t wanted).contains v.combination_indices)))).length := by
            omega
          intro hnil
          rw [hnil] at hlen
          simp at hlen
        · intro v hv
          exact List.mem_of_mem_filter hv
        · intro v hv hcont
          simp only [unwantedOf]
          rw [filter_not_remove hnd]
          exact List.mem_filter.2 ⟨hv, by simpa using hcont⟩
      · intro u
        rfl
    case isFalse hc =>
      exact ⟨t, h, hne, fun v hv => hv, fun v hv _ => hv⟩
  · intro s tid wanted t h hng
    simp only [clean_up_unwanted_variants, h]
    split
    case isTrue hc =>
      exfalso
      simp only [Bool.and_eq_true, decide_eq_true_eq, List.length_map] at hc
      exact hng ⟨hc.1, by omega⟩
    case isFalse hc => rfl
  · intro s tid created
    cases hft : findTmpl s tid with
    | none => simp [finalizeTemplate, hft]
    | some t =>
      cases hmap : t.variants.map (fun v => v.fix_price) with
      | nil => simp [finalizeTemplate, hft, hmap]
      | cons q rest =>
        simp only [finalizeTemplate, Bool.false_eq_true, if_false, hft, hmap]
        rw [findTmpl_updTmpl, hft]
        · rfl
        · intro u
          rfl
  · intro rows hall
    induction rows with
    | nil => rfl
    | cons r rest ih =>
      simp only [hasVariantData, hall r (by simp)]
      exact ih (fun r hr => hall r (by simp [hr]))

/-- A concrete template with two variants, used to witness C2. -/
def c2t : Template :=
  { id := 1, name := "T", ptype := Cell.str "consu", list_price := 0,
    standard_price := 0, uom_id := none, uom_po_id := none,
    sale_ok := Cell.bool true, purchase_ok := Cell.bool true, description := "",
    is_storable := false, tracking := "none", lot_valuated := false,
    attribute_line_ids := [],
    variants := [⟨7, [], "", 0, 0, 0, 0⟩, ⟨8, [], "5", 0, 0, 0, 0⟩] }

/-- A concrete catalog holding c2t, used to witness C2. -/
def c2s : St := ⟨[], [], [], [], [c2t], 100, fun _ _ => false⟩

/-- Witness for C2 at a concrete catalog: cleanup with an empty wanted set
on a template with two variants keeps at least one variant. -/
theorem C2_cleanup_never_empties_witness :
    ∃ t', findTmpl (clean_up_unwanted_variants c2s 1 []) 1 = some t' ∧
      t'.variants ≠ [] ∧
      (∀ v ∈ t'.variants, v ∈ c2t.variants) ∧
      (∀ v ∈ c2t.variants,
        (wantedCombos c2t []).contains v.combination_indices → v ∈ t'.variants) :=
  C2_cleanup_never_empties.1 c2s 1 [] c2t rfl (by decide) (by decide)

/-! ## Claim C7 -/

theorem groupRows_go_append (l : List Row) (r : Row) :
    ∀ acc acc1, groupRows.go acc l = .ok acc1 →
      groupRows.go acc (l ++ [r]) = groupStep acc1 r := by
  induction l with
  | nil =>
    intro acc acc1 h
    simp only [groupRows.go] at h
    cases h
    cases hs : groupStep acc r with
    | error e => simp [groupRows.go, hs]
    | ok a => simp [groupRows.go, hs]
  | cons r0 l ih =>
    intro acc acc1 h
    simp only [groupRows.go] at h ⊢
    cases hs : groupStep acc r0 with
    | error e =>
      rw [hs] at h
      exact absurd h (by simp)
    | ok a =>
      rw [hs] at h
      exact ih a acc1 h

theorem groupStep_blank (acc : List (String × Group)) (r : Row)
    (h : strOrBlankStrip (getc r.name) = .ok "") :
    groupStep acc r = .ok (groupStep.appendToLast acc r) := by
  cases acc with
  | nil => simp [groupStep, h, groupStep.appendToLast]
  | cons p rest => simp [groupStep, h]

theorem appendToLast_concat (pre : List (String × Group)) (p : String × Group) (r : Row) :
    groupStep.appendToLast (pre ++ [p]) r =
      pre ++ [(p.1, { p.2 with variants := p.2.variants ++ [r] })] := by
  induction pre with
  | nil => rfl
  | cons q pre ih =>
    cases pre with
    | nil => rfl
    | cons q2 pre2 =>
      simp only [List.cons_append, groupStep.appendToLast] at ih ⊢
      exact congrArg (List.cons q) ih

/-- C7: grouping.  (1) A row whose name cell strips to blank is appended to
the variant list of the most recently started group, all earlier groups
unchanged.  (2) A blank-name row arriving when no group exists is dropped
and the grouping still succeeds (no crash).  (3) A row repeating an
already-seen name is appended to that group when its variant cell is
truthy, is ignored entirely otherwise, and in both cases the list of group
names is unchanged, so no second group is started. -/
theorem C7_row_grouping :
    (∀ rows r pre k g, groupRows rows = .ok (pre ++ [(k, g)]) →
      strOrBlankStrip (getc r.name) = .ok "" →
      groupRows (rows ++ [r]) =
        .ok (pre ++ [(k, { g with variants := g.variants ++ [r] })])) ∧
    (∀ rows r, groupRows rows = .ok [] →
      strOrBlankStrip (getc r.name) = .ok "" →
      groupRows (rows ++ [r]) = .ok []) ∧
    (∀ rows r acc n, groupRows rows = .ok acc →
      strOrBlankStrip (getc r.name) = .ok n → n ≠ "" →
      acc.any (fun p => p.1 == n) →
      groupRows (rows ++ [r]) =
        .ok (if (getc r.variant).truthy then
              acc.map (fun p =>
                if p.1 == n then
                  (p.1, { p.2 with variants := p.2.variants ++ [r] })
                else p)
             else acc) ∧
      ∀ acc1, groupRows (rows ++ [r]) = .ok acc1 →
        acc1.map Prod.fst = acc.map Prod.fst) := by
  refine ⟨?_, ?_, ?_⟩
  · intro rows r pre k g h hblank
    have := groupRows_go_append rows r [] _ h
    unfold groupRows at h ⊢
    rw [this, groupStep_blank _ _ hblank, appendToLast_concat]
  · intro rows r h hblank
    have := groupRows_go_append rows r [] _ h
    unfold groupRows at h ⊢
    rw [this, groupStep_blank _ _ hblank]
    rfl
  · intro rows r acc n h hname hne hseen
    have hgo := groupRows_go_append rows r [] _ h
    have hstep : groupStep acc r =
        .ok (if (getc r.variant).truthy then
              acc.map (fun p =>
                if p.1 == n then
                  (p.1, { p.2 with variants := p.2.variants ++ [r] })
                else p)
             else acc) := by
      simp only [groupStep, hname]
      rw [if_pos (show (n != "") = true by simp [hne]), if_pos hseen]
      cases hv : (getc r.variant).truthy with
      | true => simp [hv]
      | false => simp [hv]
    constructor
    · unfold groupRows
      rw [hgo, hstep]
    · intro acc1 h1
      unfold groupRows at h1
      rw [hgo, hstep] at h1
      cases h1
      cases hv : (getc r.variant).truthy with
      | true =>
        simp only [hv, if_true, List.map_map]
        apply List.map_congr_left
        intro p hp
        by_cases hpk : p.1 = n <;> simp [hpk]
      | false => simp [hv]

/-- A concrete template-defining row used to witness C7. -/
def c7rowA : Row := { emptyRow with name := some (Cell.str "A") }

/-- Witness for C7 at concrete rows: a blank-name row following one group is
appended to that group. -/
theorem C7_row_grouping_witness :
    groupRows ([c7rowA] ++ [emptyRow]) =
      .ok ([] ++ [("A", { (⟨c7rowA, []⟩ : Group) with
        variants := ([] : List Row) ++ [emptyRow] })]) :=
  C7_row_grouping.1 [c7rowA] emptyRow [] "A" ⟨c7rowA, []⟩ (by decide) rfl

/-! ## Claim C3 -/

theorem get_or_create_ptav_templates (s : St) (tid aid vid : Nat) :
    (get_or_create_template_attribute_value s tid aid vid).1.templates = s.templates := by
  unfold get_or_create_template_attribute_value
  split <;> rfl

theorem resolveIds_templates (tid : Nat) (avmap : AVMap) :
    ∀ (pairs : List (String × String)) (s : St) (ids : List Nat),
      (resolveIds s tid avmap pairs ids).1.templates = s.templates := by
  intro pairs
  induction pairs with
  | nil => intro s ids; rfl
  | cons p rest ih =>
    intro s ids
    simp only [resolveIds]
    cases havm : avmapFind avmap p.1 p.2 with
    | none => exact ih s ids
    | some vr =>
      simp [ih, get_or_create_ptav_templates]

theorem findTmpl_resolveIds (s : St) (tid tid' : Nat) (avmap : AVMap)
    (pairs : List (String × String)) (ids : List Nat) :
    findTmpl (resolveIds s tid avmap pairs ids).1 tid' = findTmpl s tid' := by
  unfold findTmpl
  rw [resolveIds_templates]

/-- The behavior of create_variant_manual on a row whose variant cell strips
to a non-blank descriptor: it always succeeds, and the written variant
carries the computed sale price in both price fields. -/
theorem create_variant_manual_ok (s : St) (tid : Nat) (product : Row) (avmap : AVMap)
    (t : Template) (d : String)
    (ht : findTmpl s tid = some t)
    (hd : strOrBlankStrip (getc product.variant) = .ok d) (hdne : d ≠ "") :
    ∃ s1 vid, create_variant_manual s tid product avmap = .ok (s1, some vid) ∧
      ∃ t1 v, findTmpl s1 tid = some t1 ∧ v ∈ t1.variants ∧ v.id = vid ∧
        v.lst_price = salePriceVals (getc product.sale_price) t.list_price ∧
        v.fix_price = salePriceVals (getc product.sale_price) t.list_price := by
  have hbeq : (d == "") = false := by simp [hdne]
  simp only [create_variant_manual, hd, hbeq, Bool.false_eq_true, if_false, ht]
  cases hex : t.variants.find? (fun v =>
      sortedJoinIds v.ptav_ids ==
        sortedJoinIds (resolveIds s tid avmap (buildVariantAttrs d) []).2) with
  | some v =>
    refine ⟨_, v.id, rfl, ?_⟩
    rw [findTmpl_updTmpl]
    · rw [findTmpl_resolveIds, ht, Option.map_some']
      exact ⟨_, _, rfl,
        List.mem_map.2 ⟨v, List.mem_of_find?_eq_some hex, rfl⟩,
        by simp, by simp, by simp⟩
    · intro u
      rfl
  | none =>
    refine ⟨_, (resolveIds s tid avmap (buildVariantAttrs d) []).1.next_id, rfl, ?_⟩
    rw [findTmpl_updTmpl]
    · have : findTmpl { (resolveIds s tid avmap (buildVariantAttrs d) []).1 with
          next_id := (resolveIds s tid avmap (buildVariantAttrs d) []).1.next_id + 1 } tid =
          some t := by
        unfold findTmpl
        simp only []
        rw [resolveIds_templates]
        exact ht
      rw [this, Option.map_some']
      refine ⟨_, _, rfl, List.mem_append_right _ (List.mem_singleton.2 rfl), rfl, rfl, rfl⟩
    · intro u
      rfl

/-- C3: the sale-price rule for a variant row.  For a row whose variant cell
strips to a non-blank descriptor, create_variant_manual writes one variant
whose list and fixed price both equal a value P such that: a truthy sale
price cell that parses gives P = the parsed number; a truthy cell that
fails the parse gives P = the template current list price; a falsy cell (a
missing column, a None or empty cell — the absent case) gives P = 0. -/
theorem C3_variant_sale_price_rule :
    ∀ s tid product avmap t d,
      findTmpl s tid = some t →
      strOrBlankStrip (getc product.variant) = .ok d → d ≠ "" →
      ∃ s1 vid P, create_variant_manual s tid product avmap = .ok (s1, some vid) ∧
        (∃ t1 v, findTmpl s1 tid = some t1 ∧ v ∈ t1.variants ∧ v.id = vid ∧
          v.lst_price = P ∧ v.fix_price = P) ∧
        (∀ q, (getc product.sale_price).truthy = true →
          pyFloat (getc product.sale_price) = some q → P = q) ∧
        ((getc product.sale_price).truthy = true →
          pyFloat (getc product.sale_price) = none → P = t.list_price) ∧
        ((getc product.sale_price).truthy = false → P = 0) := by
  intro s tid product avmap t d ht hd hdne
  obtain ⟨s1, vid, hcv, t1, v, hft, hmem, hvid, hlst, hfix⟩ :=
    create_variant_manual_ok s tid product avmap t d ht hd hdne
  refine ⟨s1, vid, _, hcv, ⟨t1, v, hft, hmem, hvid, hlst, hfix⟩, ?_, ?_, ?_⟩
  · intro q htr hq
    simp [salePriceVals, htr, hq]
  · intro htr hq
    simp [salePriceVals, htr, hq]
  · intro htr
    simp [salePriceVals, htr]

/-- A concrete template used to witness C3. -/
def c3t : Template :=
  { id := 10, name := "P", ptype := Cell.str "consu", list_price := 3,
    standard_price := 0, uom_id := none, uom_po_id := none,
    sale_ok := Cell.bool true, purchase_ok := Cell.bool true, description := "",
    is_storable := false, tracking := "none", lot_valuated := false,
    attribute_line_ids := [], variants := [] }

/-- A concrete catalog used to witness C3. -/
def c3s : St := ⟨[], [], [], [], [c3t], 50, fun _ _ => false⟩

/-- A concrete variant row with a malformed sale price, witnessing C3. -/
def c3row : Row := { emptyRow with
  variant := some (Cell.str "a:b"),
  sale_price := some (Cell.str "abc") }

/-- Witness for C3 at a concrete input. -/
theorem C3_variant_sale_price_rule_witness :
    ∃ s1 vid P, create_variant_manual c3s 10 c3row [] = .ok (s1, some vid) ∧
      (∃ t1 v, findTmpl s1 10 = some t1 ∧ v ∈ t1.variants ∧ v.id = vid ∧
        v.lst_price = P ∧ v.fix_price = P) ∧
      (∀ q, (getc c3row.sale_price).truthy = true →
        pyFloat (getc c3row.sale_price) = some q → P = q) ∧
      ((getc c3row.sale_price).truthy = true →
        pyFloat (getc c3row.sale_price) = none → P = c3t.list_price) ∧
      ((getc c3row.sale_price).truthy = false → P = 0) :=
  C3_variant_sale_price_rule c3s 10 c3row [] c3t "a:b" (by decide) (by decide)
    (by decide)

/-! ## Claim C1 -/

/-- Whether a parsed pair either does not resolve through the mapping, or
resolves to an attribute value whose template-attribute-value link already
exists in the catalog (the repeated-import situation). -/
def linkExists (s : St) (tid : Nat) (avmap : AVMap) (p : String × String) : Bool :=
  match avmapFind avmap p.1 p.2 with
  | none => true
  | some (valId, _) =>
      (s.ptavs.find? (fun q => q.product_tmpl_id == tid &&
        q.product_attribute_value_id == valId)).isSome

/-- The id of the link a pair resolves to, when it resolves and the link
exists. -/
def linkIdOf (s : St) (tid : Nat) (avmap : AVMap) (p : String × String) : Option Nat :=
  match avmapFind avmap p.1 p.2 with
  | none => none
  | some (valId, _) =>
      (s.ptavs.find? (fun q => q.product_tmpl_id == tid &&
        q.product_attribute_value_id == valId)).map (fun q => q.id)

theorem resolveIds_of_existing (s : St) (tid : Nat) (avmap : AVMap) :
    ∀ (pairs : List (String × String)) (ids : List Nat),
      (∀ p ∈ pairs, linkExists s tid avmap p = true) →
      resolveIds s tid avmap pairs ids =
        (s, ids ++ pairs.filterMap (linkIdOf s tid avmap)) := by
  intro pairs
  induction pairs with
  | nil =>
    intro ids h
    simp [resolveIds]
  | cons p rest ih =>
    intro ids h
    have hp := h p (by simp)
    simp only [resolveIds]
    cases havm : avmapFind avmap p.1 p.2 with
    | none =>
      rw [ih ids (fun p hp => h p (by simp [hp]))]
      simp [List.filterMap_cons, linkIdOf, havm]
    | some vr =>
      simp only [linkExists, havm] at hp
      cases hq : s.ptavs.find? (fun q => q.product_tmpl_id == tid &&
          q.product_attribute_value_id == vr.1) with
      | none => rw [hq] at hp; exact absurd hp (by simp)
      | some q =>
        simp only [get_or_create_template_attribute_value, hq]
        rw [ih (ids ++ [q.id]) (fun p hp => h p (by simp [hp]))]
        simp [List.filterMap_cons, linkIdOf, havm, hq, List.append_assoc]

/-- C1: order independence of the combination identity.  For two descriptor
strings whose parsed attribute dicts are permutations of each other, with
every resolvable pair backed by an existing template-attribute-value link,
the candidate combination identity computed by create_variant_manual is the
same string, so the search over the template variants by identity picks the
same existing variant for both descriptors. -/
theorem C1_combination_identity_order_independent :
    ∀ s tid avmap d1 d2,
      List.Perm (buildVariantAttrs d1) (buildVariantAttrs d2) →
      (∀ p ∈ buildVariantAttrs d1, linkExists s tid avmap p = true) →
      sortedJoinIds (resolveIds s tid avmap (buildVariantAttrs d1) []).2 =
        sortedJoinIds (resolveIds s tid avmap (buildVariantAttrs d2) []).2 ∧
      ∀ (vs : List Variant),
        vs.find? (fun v => sortedJoinIds v.ptav_ids ==
          sortedJoinIds (resolveIds s tid avmap (buildVariantAttrs d1) []).2) =
        vs.find? (fun v => sortedJoinIds v.ptav_ids ==
          sortedJoinIds (resolveIds s tid avmap (buildVariantAttrs d2) []).2) := by
  intro s tid avmap d1 d2 hperm hall
  have hall2 : ∀ p ∈ buildVariantAttrs d2, linkExists s tid avmap p = true :=
    fun p hp => hall p (hperm.mem_iff.2 hp)
  have h1 := resolveIds_of_existing s tid avmap (buildVariantAttrs d1) [] hall
  have h2 := resolveIds_of_existing s tid avmap (buildVariantAttrs d2) [] hall2
  have hpermf := hperm.filterMap (linkIdOf s tid avmap)
  have hsorteq :
      (((buildVariantAttrs d1).filterMap (linkIdOf s tid avmap)).insertionSort (· ≤ ·)) =
      (((buildVariantAttrs d2).filterMap (linkIdOf s tid avmap)).insertionSort (· ≤ ·)) :=
    List.eq_of_perm_of_sorted
      ((List.perm_insertionSort _ _).trans
        (hpermf.trans (List.perm_insertionSort _ _).symm))
      (List.sorted_insertionSort _ _) (List.sorted_insertionSort _ _)
  have hs : sortedJoinIds (resolveIds s tid avmap (buildVariantAttrs d1) []).2 =
      sortedJoinIds (resolveIds s tid avmap (buildVariantAttrs d2) []).2 := by
    rw [h1, h2]
    simp only [List.nil_append, sortedJoinIds, hsorteq]
  exact ⟨hs, fun vs => by rw [hs]⟩

/-- A concrete catalog for the C1 witness: one template, the color and size
attributes with values red and m, and both links present. -/
def c1s : St :=
  ⟨[], [⟨1, "color"⟩, ⟨3, "size"⟩], [⟨2, "red", 1⟩, ⟨4, "m", 3⟩],
    [⟨7, 10, 1, 2⟩, ⟨8, 10, 3, 4⟩], [c3t], 50, fun _ _ => false⟩

/-- The attribute-value mapping for the C1 witness. -/
def c1avmap : AVMap := [("color", [("red", (2, 1))]), ("size", [("m", (4, 3))])]

/-- Witness for C1 at the concrete descriptors of the specification. -/
theorem C1_combination_identity_order_independent_witness :
    sortedJoinIds (resolveIds c1s 10 c1avmap (buildVariantAttrs "color:red,size:m") []).2 =
      sortedJoinIds (resolveIds c1s 10 c1avmap (buildVariantAttrs "size:m,color:red") []).2 ∧
    ∀ (vs : List Variant),
      vs.find? (fun v => sortedJoinIds v.ptav_ids ==
        sortedJoinIds (resolveIds c1s 10 c1avmap (buildVariantAttrs "color:red,size:m") []).2) =
      vs.find? (fun v => sortedJoinIds v.ptav_ids ==
        sortedJoinIds (resolveIds c1s 10 c1avmap (buildVariantAttrs "size:m,color:red") []).2) :=
  C1_combination_identity_order_independent c1s 10 c1avmap
    "color:red,size:m" "size:m,color:red" (by decide) (by decide)

/-! ## Claim C10 -/

theorem dictGet_cons (e : String × String) (d : List (String × String)) (a : String) :
    dictGet (e :: d) a = if e.1 == a then some e.2 else dictGet d a := by
  simp only [dictGet, List.find?_cons]
  cases he : (e.1 == a) <;> simp [he]

theorem dictGet_dictInsert (d : List (String × String)) (k v a : String) :
    dictGet (dictInsert d k v) a = if k == a then some v else dictGet d a := by
  induction d with
  | nil =>
    simp only [dictInsert]
    rw [dictGet_cons]
  | cons e d ih =>
    obtain ⟨e1, e2⟩ := e
    simp only [dictInsert]
    by_cases he : e1 = k
    · subst he
      simp only [beq_self_eq_true, if_true]
      rw [dictGet_cons, dictGet_cons]
      by_cases ha : e1 = a <;> simp [ha]
    · rw [if_neg (by simpa using he)]
      rw [dictGet_cons, dictGet_cons]
      by_cases ha : e1 = a
      · subst ha
        have hk2 : (k == e1) = false := by
          simp only [beq_eq_false_iff_ne, ne_eq]
          exact fun h => he h.symm
        simp [hk2]
      · simp only [show (e1 == a) = false by simp [ha], Bool.false_eq_true, if_false]
        exact ih

theorem dictGet_fold_last (a : String) :
    ∀ (segs : List (String × String)) (init : List (String × String)),
      dictGet (segs.foldl (fun d p => dictInsert d p.1 p.2) init) a =
        ((((segs.filter (fun p => p.1 == a)).getLast?).map (fun p => p.2)).or
          (dictGet init a)) := by
  intro segs
  induction segs using List.reverseRecOn with
  | nil => simp
  | append_singleton l p ih =>
    intro init
    rw [List.foldl_append]
    simp only [List.foldl_cons, List.foldl_nil]
    rw [dictGet_dictInsert, List.filter_append]
    cases hk : (p.1 == a) with
    | true =>
      simp only [List.filter_cons, hk, List.filter_nil, if_true]
      rw [List.getLast?_concat]
      simp
    | false =>
      simp only [List.filter_cons, hk, List.filter_nil]
      simp only [List.append_nil, Bool.false_eq_true, if_false]
      exact ih init

theorem collectGet_cons (e : String × List String) (d : List (String × List String))
    (a : String) :
    collectGet (e :: d) a = if e.1 == a then some e.2 else collectGet d a := by
  simp only [collectGet, List.find?_cons]
  cases he : (e.1 == a) <;> simp [he]

theorem collectGet_collectInsert (d : List (String × List String)) (k v a : String) :
    collectGet (collectInsert d k v) a =
      if k == a then
        some (match collectGet d a with
              | none => [v]
              | some vs => if vs.contains v then vs else vs ++ [v])
      else collectGet d a := by
  induction d with
  | nil =>
    simp only [collectInsert]
    rw [collectGet_cons]
    simp [collectGet]
  | cons e d ih =>
    obtain ⟨e1, vs⟩ := e
    simp only [collectInsert]
    by_cases he : e1 = k
    · subst he
      simp only [beq_self_eq_true, if_true]
      rw [collectGet_cons, collectGet_cons]
      by_cases ha : e1 = a <;> simp [ha]
    · rw [if_neg (by simpa using he)]
      rw [collectGet_cons, collectGet_cons]
      by_cases ha : e1 = a
      · subst ha
        have hk2 : (k == e1) = false := by
          simp only [beq_eq_false_iff_ne, ne_eq]
          exact fun h => he h.symm
        simp [hk2]
      · simp only [show (e1 == a) = false by simp [ha], Bool.false_eq_true, if_false]
        exact ih

theorem mem_collectInsert_self (d : List (String × List String)) (k v : String) :
    v ∈ (collectGet (collectInsert d k v) k).getD [] := by
  rw [collectGet_collectInsert]
  simp only [beq_self_eq_true, if_true, Option.getD_some]
  cases hg : collectGet d k with
  | none => simp
  | some vs =>
    simp only []
    cases hc : vs.contains v with
    | true => simpa using hc
    | false => simp

theorem mem_collectInsert_mono (d : List (String × List String)) (k w a v : String)
    (h : v ∈ (collectGet d a).getD []) :
    v ∈ (collectGet (collectInsert d k w) a).getD [] := by
  rw [collectGet_collectInsert]
  cases hk : (k == a) with
  | false => simpa using h
  | true =>
    simp only [if_true, Option.getD_some]
    cases hg : collectGet d a with
    | none => rw [hg] at h; simp at h
    | some vs =>
      rw [hg] at h
      simp only [Option.getD_some] at h
      simp only []
      cases hc : vs.contains w with
      | true => simpa using h
      | false => simp [h]

theorem mem_collect_fold (a v : String) :
    ∀ (segs : List (String × String)) (init : List (String × List String)),
      v ∈ (collectGet init a).getD [] ∨ (a, v) ∈ segs →
      v ∈ (collectGet (segs.foldl (fun d p => collectInsert d p.1 p.2) init) a).getD [] := by
  intro segs
  induction segs with
  | nil =>
    intro init h
    cases h with
    | inl h => exact h
    | inr h => simp at h
  | cons p rest ih =>
    intro init h
    simp only [List.foldl_cons]
    cases h with
    | inl h => exact ih _ (Or.inl (mem_collectInsert_mono init p.1 p.2 a v h))
    | inr h =>
      rw [List.mem_cons] at h
      cases h with
      | inl h =>
        subst h
        exact ih _ (Or.inl (mem_collectInsert_self init a v))
      | inr h => exact ih _ (Or.inr h)

/-- C10: a descriptor repeating an attribute name.  (1) The variant_attrs
dict built by create_variant_manual holds, for each attribute name, exactly
the value of the last segment carrying that name (earlier segments are
dropped, so they contribute nothing to the combination).  (2) The
collection phase of setup_template_attributes keeps every listed value of
every segment for that attribute. -/
theorem C10_duplicate_attribute_last_wins :
    (∀ d a, dictGet (buildVariantAttrs d) a =
      ((parseSegs d).filter (fun p => p.1 == a)).getLast?.map (fun p => p.2)) ∧
    (∀ (row : Row) (d : String),
      strOrBlankStrip (getc row.variant) = .ok d → d ≠ "" →
      ∃ m, collectAttrValues [row] = .ok m ∧
        ∀ a v, (a, v) ∈ parseSegs d → v ∈ (collectGet m a).getD []) := by
  constructor
  · intro d a
    rw [buildVariantAttrs, dictGet_fold_last]
    simp [dictGet]
  · intro row d hd hdne
    have hbeq : (d == "") = false := by simp [hdne]
    refine ⟨(parseSegs d).foldl (fun d p => collectInsert d p.1 p.2) [], ?_, ?_⟩
    · simp only [collectAttrValues, collectAttrValues.go, hd, hbeq, Bool.false_eq_true,
        if_false]
    · intro a v hmem
      exact mem_collect_fold a v (parseSegs d) [] (Or.inr hmem)

/-- A concrete row with a duplicated attribute name, witnessing C10. -/
def c10row : Row := { emptyRow with variant := some (Cell.str "size:m,size:l") }

/-- Witness for C10 at the duplicated descriptor. -/
theorem C10_duplicate_attribute_last_wins_witness :
    (∃ m, collectAttrValues [c10row] = .ok m ∧
      ∀ a v, (a, v) ∈ parseSegs "size:m,size:l" → v ∈ (collectGet m a).getD []) ∧
    dictGet (buildVariantAttrs "size:m,size:l") "size" = some "l" :=
  ⟨C10_duplicate_attribute_last_wins.2 c10row "size:m,size:l" (by decide) (by decide),
   by decide⟩

/-! ## Claim C9 -/

/-- A catalog holding only the Unit unit of measure, the starting state of
the concrete runs. -/
def unitSt : St := ⟨[⟨1, "Unit"⟩], [], [], [], [], 100, fun _ _ => false⟩

/-- A template row whose type column is present but blank. -/
def c9row : Row := { emptyRow with
  name := some (Cell.str "Y"),
  ptype := some Cell.pynone }

/-- C9 counterexample: a present-but-blank type cell is written through to
the template as the blank value, not defaulted to consu, refuting the
claim that a blank cell defaults to consu. -/
theorem C9_counterexample :
    ((match add_or_update_product_with_variants unitSt [c9row] with
      | .ok s => (s.templates.find? (fun t => t.name == "Y")).map (fun t => t.ptype)
      | .error _ => none) = some Cell.pynone) ∧ Cell.pynone ≠ Cell.str "consu" := by
  exact ⟨by decide, by decide⟩

/-- Amended C9: the type written during upsert is the raw type cell value,
and the consu default applies only when the type column is missing from the
row mapping entirely; a present-but-blank cell is written as its blank
value. -/
theorem C9_amended_type_written_raw :
    ∀ s template_data variantsEmpty vals,
      buildTemplateVals s template_data variantsEmpty = .ok vals →
      vals.ptype = (template_data.ptype).getD (Cell.str "consu") := by
  intro s td ve vals h
  simp only [buildTemplateVals] at h
  repeat' split at h
  all_goals cases h
  all_goals rfl

/-- The vals record produced for c9row, used to witness the amended C9. -/
def c9vals : TemplateVals :=
  { ptype := Cell.pynone, standard_price := 0, uom_id := some 1,
    uom_po_id := some 1, sale_ok := Cell.bool true, purchase_ok := Cell.bool true,
    description := "", is_storable := false, tracking := "none",
    lot_valuated := false, list_price := some 0 }

/-- Witness for the amended C9 at the concrete blank-type row. -/
theorem C9_amended_type_written_raw_witness :
    c9vals.ptype = (c9row.ptype).getD (Cell.str "consu") :=
  C9_amended_type_written_raw unitSt c9row true c9vals (by decide)

/-! ## Claim C4 -/

/-- Cells on which the Python idiom (cell or ...).strip() does not raise. -/
def Cell.strLike : Cell → Bool
  | .num q => q == 0
  | .bool b => !b
  | _ => true

theorem strOrBlankStrip_of_strLike (c : Cell) (h : c.strLike = true) :
    ∃ x, strOrBlankStrip c = .ok x := by
  cases c with
  | pynone => exact ⟨"", rfl⟩
  | str s => exact ⟨pyStrip s, rfl⟩
  | num q =>
    simp only [Cell.strLike] at h
    exact ⟨"", by simp [strOrBlankStrip, h]⟩
  | bool b =>
    simp only [Cell.strLike, Bool.not_eq_true'] at h
    exact ⟨"", by simp [strOrBlankStrip, h]⟩

theorem orStrStrip_of_strLike (c : Cell) (d : String) (h : c.strLike = true) :
    ∃ x, orStrStrip c d = .ok x := by
  unfold orStrStrip
  cases ht : c.truthy with
  | true =>
    simpa [ht] using strOrBlankStrip_of_strLike c h
  | false => exact ⟨pyStrip d, by simp [ht]⟩

theorem get_tracking_value_of_strLike (b : Bool) (c : Cell) (h : c.strLike = true) :
    ∃ y, get_tracking_value b c = .ok y := by
  unfold get_tracking_value
  cases b with
  | false => exact ⟨"none", rfl⟩
  | true =>
    obtain ⟨x, hx⟩ := strOrBlankStrip_of_strLike c h
    rw [if_neg (by simp)]
    simp only [hx]
    by_cases h1 : pyLower x = ""
    · exact ⟨"none", by simp [h1]⟩
    · by_cases h2 : pyLower x = "lot" ∨ pyLower x = "serial"
      · refine ⟨pyLower x, ?_⟩
        rcases h2 with h2 | h2 <;> simp [h1, h2]
      · push_neg at h2
        refine ⟨"none", ?_⟩
        simp [show (pyLower x == "") = false by simp [h1],
          show (pyLower x == "lot") = false by simp [h2.1],
          show (pyLower x == "serial") = false by simp [h2.2]]

/-- C4 as amended.  (1) A variant row whose descriptor strips to a non-blank
string never aborts create_variant_manual, whatever its sale and cost price
cells hold — malformed numerics included.  (2) A stock quantity cell that
fails the float parse yields the documented default quantity 0.  (3) But a
template-defining row whose cost price cell fails the float conversion
aborts the template upsert (the conversion at the vals dict is unguarded),
contradicting the original claim that such failures never abort
the import. -/
theorem C4_numeric_parse_recovery_amended :
    (∀ s tid product avmap t d,
      findTmpl s tid = some t →
      strOrBlankStrip (getc product.variant) = .ok d → d ≠ "" →
      ∃ s1 vid, create_variant_manual s tid product avmap = .ok (s1, some vid)) ∧
    (∀ c, pyFloat c = none → parsedQty c = 0) ∧
    (∀ s name td variants,
      (getc td.uom).strLike = true →
      (getc td.purchase_uom).strLike = true →
      (getc td.ptype).strLike = true →
      (getc td.tracked_by).strLike = true →
      pyFloat ((td.cost_price).getD (Cell.num 0)) = none →
      upsertTemplate s name td variants = .error "ValueError: float of cost price") := by
  refine ⟨?_, ?_, ?_⟩
  · intro s tid product avmap t d ht hd hdne
    obtain ⟨s1, vid, hcv, _⟩ := create_variant_manual_ok s tid product avmap t d ht hd hdne
    exact ⟨s1, vid, hcv⟩
  · intro c h
    simp [parsedQty, h]
  · intro s name td variants hu hpu hpt htb hcost
    obtain ⟨u, hu1⟩ := orStrStrip_of_strLike (getc td.uom) "Unit" hu
    obtain ⟨pu, hpu1⟩ := strOrBlankStrip_of_strLike (getc td.purchase_uom) hpu
    obtain ⟨pt, hpt1⟩ := orStrStrip_of_strLike (getc td.ptype) "consu" hpt
    obtain ⟨tb, htb1⟩ := strOrBlankStrip_of_strLike (getc td.tracked_by) htb
    obtain ⟨tv, htv1⟩ :=
      get_tracking_value_of_strLike (truthyStrEqTrue (getc td.is_tracked))
        (getc td.tracked_by) htb
    simp [upsertTemplate, buildTemplateVals, hu1, hpu1, hpt1, htb1, htv1, hcost]

/-- A template row with a malformed cost price cell. -/
def c4row : Row := { emptyRow with
  name := some (Cell.str "X"),
  cost_price := some (Cell.str "abc") }

/-- C4 counterexample: the malformed template cost price aborts the
whole import run. -/
theorem C4_counterexample :
    (match add_or_update_product_with_variants unitSt [c4row] with
     | .error e => e == "ValueError: float of cost price"
     | .ok _ => false) = true := by decide

/-- Witness for the amended C4 at the concrete malformed row. -/
theorem C4_numeric_parse_recovery_amended_witness :
    upsertTemplate unitSt "X" c4row [] = .error "ValueError: float of cost price" :=
  C4_numeric_parse_recovery_amended.2.2 unitSt "X" c4row []
    (by decide) (by decide) (by decide) (by decide) (by decide)

/-! ## Claim C8 -/

/-- C8 as amended.  The stock updater: (1) does nothing when the template
type is not consu; (2) does nothing when the normalized tracking (empty
defaults to none) is lot or serial; (3) catches a failed conversion of the
quantity value, leaving the state unchanged; (4) catches a failure of the
adjustment mechanism, leaving the state unchanged; (5) otherwise writes the
converted quantity to the addressed variant; and (6) for a group with no
variant rows whose template already has a variant, the phase ends by
passing the raw stock quantity cell of the template row — not a parsed
value with a 0 default — to the stock updater, so a malformed cell leaves
the previous quantity in place. -/
theorem C8_stock_update_contract_amended :
    (∀ s tid vid c t, findTmpl s tid = some t →
      t.ptype ≠ Cell.str "consu" →
      update_variant_stock_quantity s tid vid c = s) ∧
    (∀ s tid vid c t, findTmpl s tid = some t →
      ((if t.tracking == "" then "none" else t.tracking) = "lot" ∨
       (if t.tracking == "" then "none" else t.tracking) = "serial") →
      update_variant_stock_quantity s tid vid c = s) ∧
    (∀ s tid vid c, cellToFloatField c = none →
      update_variant_stock_quantity s tid vid c = s) ∧
    (∀ s tid vid c q, cellToFloatField c = some q →
      s.adjust_fails vid q = true →
      update_variant_stock_quantity s tid vid c = s) ∧
    (∀ s tid vid c q t, findTmpl s tid = some t →
      t.ptype = Cell.str "consu" →
      (if t.tracking == "" then "none" else t.tracking) ≠ "lot" →
      (if t.tracking == "" then "none" else t.tracking) ≠ "serial" →
      cellToFloatField c = some q →
      s.adjust_fails vid q = false →
      findTmpl (update_variant_stock_quantity s tid vid c) tid =
        some { t with variants := t.variants.map (fun w =>
          if w.id == vid then { w with qty_available := q } else w) }) ∧
    (∀ s tid td t v0 rest, findTmpl s tid = some t →
      t.variants = v0 :: rest →
      variantPhase s tid td [] =
        .ok (update_variant_stock_quantity s tid v0.id (getc td.stock_quantity), [])) := by
  have hbody : ∀ (s : St) (tid vid : Nat) (c : Cell) (t : Template),
      findTmpl s tid = some t →
      update_variant_stock_quantity s tid vid c =
        (if (!(t.ptype == Cell.str "consu")) = true then s
         else
          if ((if (t.tracking == "") = true then "none" else t.tracking) == "lot" ||
              (if (t.tracking == "") = true then "none" else t.tracking) == "serial") = true
          then s
          else
            match cellToFloatField c with
            | none => s
            | some q =>
              if s.adjust_fails vid q = true then s
              else updTmpl s tid (fun t => { t with variants := t.variants.map (fun w =>
                if w.id == vid then { w with qty_available := q } else w) })) := by
    intro s tid vid c t ht
    unfold update_variant_stock_quantity
    rw [ht]
  refine ⟨?_, ?_, ?_, ?_, ?_, ?_⟩
  · intro s tid vid c t ht hne
    rw [hbody s tid vid c t ht]
    rw [if_pos (by simp [hne])]
  · intro s tid vid c t ht htr
    rw [hbody s tid vid c t ht]
    by_cases hty : (!(t.ptype == Cell.str "consu")) = true
    · rw [if_pos hty]
    · rw [if_neg hty]
      rcases htr with h | h
      · rw [if_pos (by rw [h]; decide)]
      · rw [if_pos (by rw [h]; decide)]
  · intro s tid vid c hconv
    cases hft : findTmpl s tid with
    | none => unfold update_variant_stock_quantity; rw [hft]
    | some t =>
      rw [hbody s tid vid c t hft]
      repeat' split
      all_goals first
        | rfl
        | (exfalso; simp_all)
  · intro s tid vid c q hconv hfail
    cases hft : findTmpl s tid with
    | none => unfold update_variant_stock_quantity; rw [hft]
    | some t =>
      rw [hbody s tid vid c t hft]
      repeat' split
      all_goals first
        | rfl
        | (exfalso; simp_all)
  · intro s tid vid c q t ht htype htr1 htr2 hconv hok
    rw [hbody s tid vid c t ht]
    rw [if_neg (by simp [htype])]
    rw [if_neg (show ¬ (((if (t.tracking == "") = true then "none" else t.tracking) == "lot" ||
        (if (t.tracking == "") = true then "none" else t.tracking) == "serial") = true) by
      simp only [Bool.or_eq_true, beq_iff_eq]
      push_neg
      constructor
      · simpa only [beq_iff_eq] using htr1
      · simpa only [beq_iff_eq] using htr2)]
    rw [hconv]
    simp only [hok, Bool.false_eq_true, if_false]
    rw [findTmpl_updTmpl, ht]
    · rfl
    · intro u
      rfl
  · intro s tid td t v0 rest ht hv
    unfold variantPhase
    simp only [show setup_template_attributes s tid ([] : List Row) = .ok (s, []) from rfl]
    simp only [show variantLoop s tid [] ([] : List Row) [] = .ok (s, []) from rfl]
    simp [ht, hv]

/-- A concrete consumable template with one variant at quantity 5. -/
def c8t : Template :=
  { id := 10, name := "T", ptype := Cell.str "consu", list_price := 3,
    standard_price := 0, uom_id := some 1, uom_po_id := some 1,
    sale_ok := Cell.bool true, purchase_ok := Cell.bool true, description := "",
    is_storable := false, tracking := "none", lot_valuated := false,
    attribute_line_ids := [], variants := [⟨9, [], "", 3, 3, 0, 5⟩] }

/-- The catalog holding c8t and the Unit unit of measure. -/
def c8s : St := ⟨[⟨1, "Unit"⟩], [], [], [], [c8t], 100, fun _ _ => false⟩

/-- A template row for T with no variant rows and a malformed stock cell. -/
def c8row : Row := { emptyRow with
  name := some (Cell.str "T"),
  stock_quantity := some (Cell.str "abc") }

/-- C8 counterexample: on a zero-variant-row group for a pre-existing
template, a malformed stock quantity cell leaves the variant quantity at
its previous value 5, while the claim prescribes a parsed value with
default 0. -/
theorem C8_counterexample :
    ((match add_or_update_product_with_variants c8s [c8row] with
      | .ok s => (s.templates.find? (fun t => t.name == "T")).bind
          (fun t => (t.variants.find? (fun v => v.id == 9)).map
            (fun v => v.qty_available))
      | .error _ => none) = some 5) ∧ (5 : Rat) ≠ 0 ∧
      pyFloat (Cell.str "abc") = none := by decide

/-- Witness for the amended C8 at the concrete zero-variant-row group. -/
theorem C8_stock_update_contract_amended_witness :
    variantPhase c8s 10 c8row [] =
      .ok (update_variant_stock_quantity c8s 10
        (Variant.id ⟨9, [], "", 3, 3, 0, 5⟩) (getc c8row.stock_quantity), []) :=
  C8_stock_update_contract_amended.2.2.2.2.2 c8s 10 c8row c8t ⟨9, [], "", 3, 3, 0, 5⟩ []
    (by decide) (by decide)

/-! ## Claim C6 -/

theorem foldl_min_le (l : List Rat) (q : Rat) : ∀ x ∈ q :: l, l.foldl min q ≤ x := by
  induction l generalizing q with
  | nil =>
    intro x hx
    rw [List.mem_singleton] at hx
    subst hx
    exact le_refl _
  | cons a l ih =>
    intro x hx
    simp only [List.foldl_cons]
    rcases List.mem_cons.1 hx with h | h
    · subst h
      exact le_trans (ih (min x a) (min x a) (by simp)) (min_le_left _ _)
    · rcases List.mem_cons.1 h with h2 | h2
      · subst h2
        exact le_trans (ih (min q x) (min q x) (by simp)) (min_le_right _ _)
      · exact ih (min q a) x (by simp [h2])

theorem foldl_min_mem (l : List Rat) (q : Rat) : l.foldl min q ∈ q :: l := by
  induction l generalizing q with
  | nil => simp
  | cons a l ih =>
    simp only [List.foldl_cons]
    rcases List.mem_cons.1 (ih (min q a)) with h | h
    · rw [h]
      rcases min_choice q a with h2 | h2 <;> simp [h2]
    · simp [h]

/-- After the finalizer, a template that still holds variants has its list
price equal to the minimum fix price: the written price is one of the fix
prices and is below all of them. -/
theorem finalize_list_price_min (s : St) (tid : Nat) (created : List Nat) (b : Bool) :
    ∀ t', findTmpl (finalizeTemplate s tid created b) tid = some t' →
      t'.variants ≠ [] →
      t'.list_price ∈ t'.variants.map (fun v => v.fix_price) ∧
      ∀ p ∈ t'.variants.map (fun v => v.fix_price), t'.list_price ≤ p := by
  intro t' h hne
  unfold finalizeTemplate at h
  set s1 := if b = true then clean_up_unwanted_variants s tid created else s with hs1
  cases hft : findTmpl s1 tid with
  | none =>
    simp only [hft] at h
    exact absurd h (by simp)
  | some t =>
    simp only [hft] at h
    cases hmap : t.variants.map (fun v => v.fix_price) with
    | nil =>
      simp only [hmap] at h
      rw [hft] at h
      cases h
      rw [List.map_eq_nil_iff] at hmap
      exact absurd hmap hne
    | cons q rest =>
      simp only [hmap] at h
      rw [findTmpl_updTmpl, hft] at h
      · simp only [Option.map_some'] at h
        cases h
        constructor
        · simp only []
          rw [hmap]
          exact foldl_min_mem rest q
        · intro p hp
          simp only [] at hp
          rw [hmap] at hp
          exact foldl_min_le rest q p hp
      · intro u
        rfl

/-- C6: after a group is processed successfully, the resolved template, as
long as it still holds at least one variant (as any template with more than
one variant does), has list price equal to the minimum fix price over its
current variants: the price is one of the fix prices and is below all of
them.  The recompute is the final action of the import on that template. -/
theorem processGroupT_list_price_min :
    ∀ s tg s' tid, processGroupT s tg = .ok (s', tid) →
      ∀ t', findTmpl s' tid = some t' → t'.variants ≠ [] →
      t'.list_price ∈ t'.variants.map (fun v => v.fix_price) ∧
      ∀ p ∈ t'.variants.map (fun v => v.fix_price), t'.list_price ≤ p := by
  intro s tg s' tid h
  unfold processGroupT at h
  repeat' split at h
  all_goals cases h
  intro t' ht hne
  exact finalize_list_price_min _ _ _ _ t' ht hne

/-- C6: list price of a template with variants after the import.  (1) After
each template group is processed successfully, the template the group
resolved to, whenever it still holds at least one variant (so in particular
whenever it holds more than one), has list price equal to the minimum fix
price over its current variants: the price is one of the fix prices and is
below all of them.  The recompute is the final action the import performs
on each template it touches.  (2) In particular, for an import whose rows
form a single template group, the final state of a successful run
satisfies the same property for the imported template. -/
theorem C6_list_price_min_fix :
    (∀ s tg s' tid, processGroupT s tg = .ok (s', tid) →
      ∀ t', findTmpl s' tid = some t' → t'.variants ≠ [] →
      t'.list_price ∈ t'.variants.map (fun v => v.fix_price) ∧
      ∀ p ∈ t'.variants.map (fun v => v.fix_price), t'.list_price ≤ p) ∧
    (∀ s rows g s', groupRows rows = .ok [g] →
      add_or_update_product_with_variants s rows = .ok s' →
      ∃ tid, processGroupT s g = .ok (s', tid) ∧
        ∀ t', findTmpl s' tid = some t' → t'.variants ≠ [] →
        t'.list_price ∈ t'.variants.map (fun v => v.fix_price) ∧
        ∀ p ∈ t'.variants.map (fun v => v.fix_price), t'.list_price ≤ p) := by
  constructor
  · exact processGroupT_list_price_min
  · intro s rows g s' hg h
    unfold add_or_update_product_with_variants at h
    rw [hg] at h
    unfold add_or_update_product_with_variants.goGroups at h
    cases hp : processGroupT s g with
    | error e =>
      rw [hp] at h
      exact absurd h (by simp)
    | ok r =>
      obtain ⟨s1, tid1⟩ := r
      rw [hp] at h
      simp only [add_or_update_product_with_variants.goGroups] at h
      cases h
      exact ⟨tid1, rfl, processGroupT_list_price_min s g s' tid1 hp⟩

/-- A template row for Shirt with a first variant at sale price 100. -/
def c6row1 : Row := { emptyRow with
  name := some (Cell.str "Shirt"),
  variant := some (Cell.str "color:red"),
  sale_price := some (Cell.str "100") }

/-- A second variant row at sale price 50. -/
def c6row2 : Row := { emptyRow with
  variant := some (Cell.str "color:blue"),
  sale_price := some (Cell.str "50") }

/-- The Shirt group with two variant rows. -/
def c6g : String × Group := ("Shirt", ⟨c6row1, [c6row2]⟩)

/-- The state and template id produced by processing the Shirt group. -/
def c6pair : St × Nat := (processGroupT unitSt c6g).toOption.getD (unitSt, 0)

/-- The Shirt template after the group is processed (it has two variants
with fix prices 100 and 50). -/
def c6t : Template := (findTmpl c6pair.1 c6pair.2).getD c3t

/-- Witness for C6 at the concrete two-variant import. -/
theorem C6_list_price_min_fix_witness :
    c6t.list_price ∈ c6t.variants.map (fun v => v.fix_price) ∧
    ∀ p ∈ c6t.variants.map (fun v => v.fix_price), c6t.list_price ≤ p :=
  C6_list_price_min_fix.1 unitSt c6g c6pair.1 c6pair.2 rfl c6t rfl (by decide)

/-! ## Claim C5 -/

theorem findTmpl_set_next (s : St) (n tid : Nat) :
    findTmpl { s with next_id := n } tid = findTmpl s tid := rfl

/-- The data of the variants the stock updater never changes: their ids and
fix prices. -/
def variantShape (t : Template) : List (Nat × Rat) :=
  t.variants.map (fun v => (v.id, v.fix_price))

theorem update_stock_cases (s : St) (tid vid : Nat) (c : Cell) :
    update_variant_stock_quantity s tid vid c = s ∨
    (∃ q, cellToFloatField c = some q ∧
      update_variant_stock_quantity s tid vid c =
        updTmpl s tid (fun t => { t with variants := t.variants.map (fun w =>
          if w.id == vid then { w with qty_available := q } else w) })) := by
  unfold update_variant_stock_quantity
  repeat' split
  all_goals first
    | (left; rfl)
    | (right; exact ⟨_, by assumption, rfl⟩)

theorem update_stock_shape (s : St) (tid vid : Nat) (c : Cell) (t : Template)
    (ht : findTmpl s tid = some t) :
    ∃ t', findTmpl (update_variant_stock_quantity s tid vid c) tid = some t' ∧
      variantShape t' = variantShape t := by
  rcases update_stock_cases s tid vid c with h | ⟨q, hq, h⟩
  · rw [h, ht]
    exact ⟨t, rfl, rfl⟩
  · rw [h, findTmpl_updTmpl, ht]
    · refine ⟨_, rfl, ?_⟩
      simp only [variantShape, List.map_map]
      apply List.map_congr_left
      intro w hw
      by_cases hid : w.id = vid <;> simp [hid]
    · intro u
      rfl

theorem map_eq_singleton {α β : Type} (f : α → β) (l : List α) (y : β)
    (h : l.map f = [y]) : ∃ w, l = [w] ∧ f w = y := by
  cases l with
  | nil => simp at h
  | cons a l2 =>
    cases l2 with
    | nil =>
      simp only [List.map_cons, List.map_nil, List.cons.injEq, and_true] at h
      exact ⟨a, rfl, h⟩
    | cons b l3 => simp at h

theorem fixes_eq_shape_snd (t : Template) :
    t.variants.map (fun v => v.fix_price) = (variantShape t).map Prod.snd := by
  simp [variantShape, List.map_map]

theorem buildTemplateVals_on_empty (s : St) (td : Row) (vals : TemplateVals)
    (h : buildTemplateVals s td true = .ok vals) :
    ∃ lp, pyFloat ((td.sale_price).getD (Cell.num 0)) = some lp ∧
      vals.list_price = some lp := by
  simp only [buildTemplateVals] at h
  repeat' split at h
  all_goals cases h
  all_goals first
    | exact ⟨_, by assumption, rfl⟩
    | simp_all

theorem upsert_creates_with_sale_price (s : St) (name : String) (td : Row)
    (vals : TemplateVals) (lp : Rat)
    (hfresh : ∀ t ∈ s.templates, t.id ≠ s.next_id)
    (hfind : s.templates.find? (fun t => ilikeEq t.name name) = none)
    (hvals : buildTemplateVals s td true = .ok vals)
    (hlp : vals.list_price = some lp) :
    ∃ s1, upsertTemplate s name td [] = .ok (s1, s.next_id) ∧
      ∃ t, findTmpl s1 s.next_id = some t ∧
        t.list_price = lp ∧ t.variants = [] := by
  unfold upsertTemplate
  simp only [List.isEmpty_nil, hvals, hfind]
  refine ⟨_, rfl, ?_⟩
  unfold findTmpl
  simp only []
  rw [List.find?_append]
  rw [List.find?_eq_none.2 (fun t ht => by simp [hfresh t ht])]
  simp [hlp]

theorem variantPhase_creates_default (s : St) (tid : Nat) (td : Row) (t : Template)
    (ht : findTmpl s tid = some t) (hv : t.variants = []) :
    ∃ s2, variantPhase s tid td [] = .ok (s2, [s.next_id]) ∧
      ∃ t2, findTmpl s2 tid = some t2 ∧
        t2.variants.map (fun v => v.fix_price) = [(0 : Rat)] := by
  unfold variantPhase
  simp only [show setup_template_attributes s tid ([] : List Row) = .ok (s, []) from rfl]
  simp only [show variantLoop s tid [] ([] : List Row) [] = .ok (s, []) from rfl]
  simp only [ht, hv, List.isEmpty_nil, List.length_nil, Option.map_some',
    Option.getD_some, Bool.true_and, Nat.zero_eq, beq_self_eq_true, if_true]
  have hup : findTmpl (updTmpl { s with next_id := s.next_id + 1 } tid
      (fun t => { t with variants := t.variants ++ [⟨s.next_id, [], "", 0, 0, 0, 0⟩] })) tid =
      some { t with variants := [(⟨s.next_id, [], "", 0, 0, 0, 0⟩ : Variant)] } := by
    rw [findTmpl_updTmpl, findTmpl_set_next, ht]
    · simp [hv]
    · intro u
      rfl
  set nv : Variant := ⟨s.next_id, [], "", 0, 0, 0, 0⟩ with hnv
  set ta : Template := { t with variants := [nv] } with hta
  by_cases hts : (getc td.stock_quantity == Cell.pynone) = true
  · rw [if_pos hts, hup]
    obtain ⟨t2, ht2, hsh⟩ := update_stock_shape _ tid nv.id (getc td.stock_quantity) ta hup
    refine ⟨_, rfl, t2, ht2, ?_⟩
    rw [fixes_eq_shape_snd, hsh]
    simp [variantShape, hta, hnv]
  · rw [if_neg hts]
    obtain ⟨tb, htb, hshb⟩ :=
      update_stock_shape _ tid nv.id (Cell.num (parsedQty (getc td.stock_quantity))) ta hup
    have hshb2 : variantShape tb = [(s.next_id, 0)] := by
      rw [hshb]
      simp [variantShape, hta, hnv]
    obtain ⟨w, hw, hwid⟩ := map_eq_singleton _ tb.variants (s.next_id, (0 : Rat)) hshb2
    rw [htb]
    have hb : ((some tb).bind fun a => a.variants.head?) = some w := by
      show tb.variants.head? = some w
      rw [hw]
      rfl
    rw [hb]
    obtain ⟨t2, ht2, hsh2⟩ := update_stock_shape _ tid w.id (getc td.stock_quantity) tb htb
    refine ⟨_, rfl, t2, ht2, ?_⟩
    rw [fixes_eq_shape_snd, hsh2, hshb2]
    rfl

/-- C5 as amended.  For a group with no variant rows: (1) the vals dict for
the upsert carries the parsed sale price as list price; (2) creating the
template (absent by name, with a fresh id) stores that price on the
template; (3) the variant phase then creates exactly one default variant,
whose fix price is 0; (4) but the finalizer afterwards overwrites the list
price with the minimum fix price of the current variants — 0 for the fresh
default variant — so the directly-set sale price does not survive to the
end of the group import unless it equals that minimum. -/
theorem C5_service_template_amended :
    (∀ s td vals, buildTemplateVals s td true = .ok vals →
      ∃ lp, pyFloat ((td.sale_price).getD (Cell.num 0)) = some lp ∧
        vals.list_price = some lp) ∧
    (∀ s name td vals lp,
      (∀ t ∈ s.templates, t.id ≠ s.next_id) →
      s.templates.find? (fun t => ilikeEq t.name name) = none →
      buildTemplateVals s td true = .ok vals →
      vals.list_price = some lp →
      ∃ s1, upsertTemplate s name td [] = .ok (s1, s.next_id) ∧
        ∃ t, findTmpl s1 s.next_id = some t ∧
          t.list_price = lp ∧ t.variants = []) ∧
    (∀ s tid td t, findTmpl s tid = some t → t.variants = [] →
      ∃ s2, variantPhase s tid td [] = .ok (s2, [s.next_id]) ∧
        ∃ t2, findTmpl s2 tid = some t2 ∧
          t2.variants.map (fun v => v.fix_price) = [(0 : Rat)]) ∧
    (∀ s tid created b t',
      findTmpl (finalizeTemplate s tid created b) tid = some t' →
      t'.variants.map (fun v => v.fix_price) = [(0 : Rat)] →
      t'.list_price = 0) := by
  refine ⟨?_, ?_, ?_, ?_⟩
  · intro s td vals h
    exact buildTemplateVals_on_empty s td vals h
  · intro s name td vals lp hfresh hfind hvals hlp
    exact upsert_creates_with_sale_price s name td vals lp hfresh hfind hvals hlp
  · intro s tid td t ht hv
    exact variantPhase_creates_default s tid td t ht hv
  · intro s tid created b t' h hfix
    have hne : t'.variants ≠ [] := by
      intro hnil
      rw [hnil] at hfix
      simp at hfix
    have := (finalize_list_price_min s tid created b t' h hne).1
    rw [hfix] at this
    simpa using this

/-- A service-type template row with sale price 7.5 and no variant cells. -/
def c5row : Row := { emptyRow with
  name := some (Cell.str "Svc"),
  ptype := some (Cell.str "service"),
  sale_price := some (Cell.str "7.5") }

/-- C5 counterexample: after the import of the service row, the template
holds exactly one variant, but its list price is 0 — the minimum variant
fix price — not the sale price 7.5 the claim says remains in effect. -/
theorem C5_counterexample :
    ((match add_or_update_product_with_variants unitSt [c5row] with
      | .ok s => (s.templates.find? (fun t => t.name == "Svc")).map
          (fun t => (t.variants.length, t.list_price))
      | .error _ => none) = some (1, 0)) ∧
    pyFloat (Cell.str "7.5") = some (mkRat 15 2) ∧ mkRat 15 2 ≠ 0 := by decide

/-- Witness for the amended C5: the default-variant stage at a concrete
template with no variants. -/
theorem C5_service_template_amended_witness :
    ∃ s2, variantPhase c3s 10 emptyRow [] = .ok (s2, [c3s.next_id]) ∧
      ∃ t2, findTmpl s2 10 = some t2 ∧
        t2.variants.map (fun v => v.fix_price) = [(0 : Rat)] :=
  C5_service_template_amended.2.2.1 c3s 10 emptyRow c3t (by decide) (by decide)

end KsoImport
